import Mathlib

/-!
Verification development for the LassoNet visualizer's numeric core.

The TypeScript source is embedded shallowly over `ℚ` (the code's JS numbers
carry only small decimal fractions, which `ℚ` represents exactly):

* `src/unnamed/part_000` — the step engine: `initializeWeights`,
  `softThreshold`, `performGradientStep`, `performProximalStep` (the variant
  returning `{features, details}`, with targets 1.8 / 0.6 / 0.05 and pruning
  epsilon 1e-4).
* `src/App.tsx` — the scheduler `advanceSimulation` together with the reset
  state produced by `resetSimulation`.

Log strings are represented by a tag type carrying their numeric payloads
(no claim inspects log text); the `detailedLog` prose field, a display-only
string overwritten on every call, is omitted from the state.
-/

namespace LassoNet

/-- Mirrors `OptimizationStep` in `types.ts`. -/
inductive OptimizationStep where
  | GRADIENT
  | PROXIMAL
deriving DecidableEq, Repr

/-- Mirrors `SimulationPhase` in `types.ts`. -/
inductive SimulationPhase where
  | INIT
  | PRETRAIN
  | PATH_LOOP
  | FINISHED
deriving DecidableEq, Repr

/-- Mirrors `WeightData` in `types.ts`. -/
structure WeightData where
  id : Nat
  theta : ℚ
  w : List ℚ
  isActive : Bool
  isClamped : Bool
  prevTheta : ℚ
  prevW : List ℚ
  gradTheta : ℚ
  gradW : List ℚ
deriving DecidableEq, Repr

/-- Mirrors `StepCalculationDetails` in `types.ts`; the optional TS fields
become `Option ℚ`, defaulting to `none` (JS `undefined`). -/
structure StepCalculationDetails where
  stepType : OptimizationStep
  featureId : Nat
  oldVal : Option ℚ := none
  grad : Option ℚ := none
  learningRate : Option ℚ := none
  newVal : Option ℚ := none
  inputTheta : Option ℚ := none
  lambda : Option ℚ := none
  thresholdedTheta : Option ℚ := none
  inputW : Option ℚ := none
  limit : Option ℚ := none
  clampedW : Option ℚ := none
deriving DecidableEq, Repr

/- Constants from `constants.ts`. -/

def NUM_FEATURES : Nat := 3

def HIDDEN_SIZE : Nat := 5

def M_CONSTANT : ℚ := 2.0

def MAX_LAMBDA : ℚ := 2.0

def LAMBDA_STEP : ℚ := 0.2

def EPOCHS_PER_LAMBDA : Nat := 5

def LEARNING_RATE : ℚ := 0.1

/-- `initializeWeights` from `src/unnamed/part_000`:
`startTheta = 1.0 - i*0.4`, every hidden weight `startTheta * 0.5`,
`prevTheta`/`prevW` equal to the fresh values, gradients zero. -/
def initializeWeights : List WeightData :=
  (List.range NUM_FEATURES).map fun (i : Nat) =>
    let startTheta : ℚ := 1.0 - (i : ℚ) * 0.4
    let startW : List ℚ := List.replicate HIDDEN_SIZE (startTheta * 0.5)
    { id := i + 1
      theta := startTheta
      w := startW
      isActive := true
      isClamped := false
      prevTheta := startTheta
      prevW := startW
      gradTheta := 0
      gradW := List.replicate HIDDEN_SIZE 0 }

/-- `softThreshold` from `src/unnamed/part_000`. -/
def softThreshold (x lambda : ℚ) : ℚ :=
  if x > lambda then x - lambda
  else if x < -lambda then x + lambda
  else 0

/-- The per-feature hardcoded gradient target of `performGradientStep`:
id 1 ↦ 1.8, id 2 ↦ 0.6, anything else ↦ 0.05. -/
def targetTheta (id : Nat) : ℚ :=
  if id = 1 then 1.8 else if id = 2 then 0.6 else 0.05

/-- The body of the `features.map` in `performGradientStep`
(`src/unnamed/part_000`): inactive features return early unmodified; active
ones move toward their target (`gradW[i] = w[i] - targetW`, so the indexed
`w - LR * gradW[i]` update is the `zipWith` below). -/
def gradFeature (f : WeightData) : WeightData :=
  if f.isActive = false then f
  else
    let tT := targetTheta f.id
    let tW := tT * 0.5
    let gT := f.theta - tT
    let gW := f.w.map fun wv => wv - tW
    { f with
      prevTheta := f.theta
      prevW := f.w
      gradTheta := gT
      gradW := gW
      theta := f.theta - LEARNING_RATE * gT
      w := List.zipWith (fun wv g => wv - LEARNING_RATE * g) f.w gW
      isClamped := false }

/-- The detail record `performGradientStep` writes for a feature it selects
for display. -/
def gradDetailFor (f : WeightData) : StepCalculationDetails :=
  { stepType := .GRADIENT
    featureId := f.id
    oldVal := some f.theta
    grad := some (f.theta - targetTheta f.id)
    learningRate := some LEARNING_RATE
    newVal := some (f.theta - LEARNING_RATE * (f.theta - targetTheta f.id)) }

/-- The sequential update of the mutable `detailObj` while
`performGradientStep` maps over the features: skipped (inactive) features
leave it alone; an updated feature overwrites it when
`f.id === 1 || (f.id === 2 && detailObj.featureId !== 1)`. -/
def gradDetailUpd (d : StepCalculationDetails) (f : WeightData) :
    StepCalculationDetails :=
  if f.isActive = false then d
  else if f.id = 1 ∨ (f.id = 2 ∧ d.featureId ≠ 1) then gradDetailFor f
  else d

/-- `performGradientStep` from `src/unnamed/part_000`. The source computes
the new features and threads `detailObj` through one `features.map`; since
each returned feature is independent of `detailObj`, this is the pair of a
pointwise map and a left fold from the placeholder `{GRADIENT, featureId: 1}`. -/
def performGradientStep (features : List WeightData) :
    List WeightData × StepCalculationDetails :=
  (features.map gradFeature,
   features.foldl gradDetailUpd { stepType := .GRADIENT, featureId := 1 })

/-- JS `Math.sign` on rationals. -/
def jsSign (x : ℚ) : ℚ :=
  if 0 < x then 1 else if x < 0 then -1 else 0

/-- The body of the `features.map` in `performProximalStep`
(`src/unnamed/part_000`): soft-threshold `theta` at `lambda * LR`, prune when
the result is not above `1e-4` in magnitude, then clamp each hidden weight
onto `[-limit, limit]` with `limit = M * |theta'|`. -/
def proxFeature (lambda : ℚ) (f : WeightData) : WeightData :=
  let threshold := lambda * LEARNING_RATE
  let t1 := softThreshold f.theta threshold
  let isActive : Bool := decide ((1e-4 : ℚ) < |t1|)
  let newTheta := if isActive then t1 else 0
  let limit := M_CONSTANT * |newTheta|
  let newW := f.w.map fun wv => if |wv| > limit then jsSign wv * limit else wv
  let isClamped : Bool := f.w.any fun wv => decide (|wv| > limit)
  { f with
    prevTheta := f.theta
    prevW := f.w
    theta := newTheta
    w := newW
    isActive := isActive
    isClamped := isClamped
    gradTheta := 0
    gradW := f.w.map fun _ => 0 }

/-- The detail record `performProximalStep` writes for a selected feature;
`inputW`/`clampedW` show the first hidden weight (`w[0]`, `none` when empty). -/
def proxDetailFor (lambda : ℚ) (f : WeightData) : StepCalculationDetails :=
  let g := proxFeature lambda f
  { stepType := .PROXIMAL
    featureId := f.id
    inputTheta := some f.theta
    lambda := some (lambda * LEARNING_RATE)
    thresholdedTheta := some g.theta
    inputW := f.w.head?
    limit := some (M_CONSTANT * |g.theta|)
    clampedW := g.w.head? }

/-- The sequential `detailObj` update of `performProximalStep`; unlike the
gradient step, every feature is processed (no inactive short-circuit). -/
def proxDetailUpd (lambda : ℚ) (d : StepCalculationDetails)
    (f : WeightData) : StepCalculationDetails :=
  if f.id = 1 ∨ (f.id = 2 ∧ d.featureId ≠ 1) then proxDetailFor lambda f
  else d

/-- `performProximalStep` from `src/unnamed/part_000`, decomposed like
`performGradientStep`. -/
def performProximalStep (features : List WeightData) (lambda : ℚ) :
    List WeightData × StepCalculationDetails :=
  (features.map (proxFeature lambda),
   features.foldl (proxDetailUpd lambda) { stepType := .PROXIMAL, featureId := 1 })

/-- Log lines of `advanceSimulation`, abstracted to tags carrying the numeric
payloads interpolated into the strings. -/
inductive LogEntry where
  | initialized
  | pretrainStart
  | pruned (lambda : ℚ)
  | warmStart (lambda : ℚ)
  | increase (lambda : ℚ)
  | completed
deriving DecidableEq, Repr

/-- Simulation state from `types.ts` / `App.tsx` (the display-only
`detailedLog` prose and the derived `calculationDetails` are omitted; no
claim mentions them). -/
structure SimulationState where
  phase : SimulationPhase
  step : OptimizationStep
  lambda : ℚ
  epoch : Nat
  features : List WeightData
  logs : List LogEntry
deriving DecidableEq, Repr

/-- JS `parseFloat(x.toFixed(2))` on the nonnegative lambdas this scheduler
produces: round to two decimal places (half away from zero coincides with
half up on nonnegative inputs). -/
def toFixed2 (q : ℚ) : ℚ :=
  ((q * 100 + 1 / 2).floor : ℚ) / 100

/-- `advanceSimulation` from `src/App.tsx`. The `INIT` branch returns early;
otherwise one engine step runs (flipping `step`, a proximal call also
incrementing `epoch` and possibly logging a pruning), then the phase
transition block runs on `prev.phase`. The `setIsPlaying(false)` UI call and
the `detailedLog` strings (the in-branch assignments are dead: the final
`return {...next, detailedLog: stepLog}` overwrites them) are omitted. -/
def advanceSimulation (prev : SimulationState) : SimulationState :=
  if prev.phase = .INIT then
    { prev with phase := .PRETRAIN, logs := prev.logs ++ [.pretrainStart] }
  else
    let next1 : SimulationState :=
      if prev.step = .GRADIENT then
        { prev with
          features := (performGradientStep prev.features).1
          step := .PROXIMAL }
      else
        let nf := (performProximalStep prev.features prev.lambda).1
        let prunedNow :=
          (nf.filter (·.isActive)).length <
            (prev.features.filter (·.isActive)).length
        { prev with
          features := nf
          step := .GRADIENT
          epoch := prev.epoch + 1
          logs := if prunedNow then prev.logs ++ [.pruned prev.lambda] else prev.logs }
    if prev.phase = .PRETRAIN then
      if 5 ≤ next1.epoch then
        { next1 with
          phase := .PATH_LOOP
          epoch := 0
          lambda := LAMBDA_STEP
          logs := next1.logs ++ [.warmStart LAMBDA_STEP] }
      else next1
    else if prev.phase = .PATH_LOOP then
      if EPOCHS_PER_LAMBDA ≤ next1.epoch then
        let newLambda := toFixed2 (prev.lambda + LAMBDA_STEP)
        if newLambda > MAX_LAMBDA then
          { next1 with
            phase := .FINISHED
            epoch := 0
            lambda := newLambda
            logs := next1.logs ++ [.completed] }
        else
          { next1 with
            epoch := 0
            lambda := newLambda
            logs := next1.logs ++ [.increase newLambda] }
      else next1
    else next1

/-- The state `resetSimulation` installs (and the mount effect applies):
`INITIAL_STATE` with freshly initialized features and the init log line. -/
def resetState : SimulationState :=
  { phase := .INIT
    step := .GRADIENT
    lambda := 0
    epoch := 0
    features := initializeWeights
    logs := [.initialized] }

/-- The state after `n` `advance()` calls from the reset state. -/
def iter (n : Nat) : SimulationState :=
  advanceSimulation^[n] resetState

/-- Running maximum of absolute values, `max_k |w_k|` (zero on an empty list). -/
def maxAbs (l : List ℚ) : ℚ := l.foldl (fun a b => max a |b|) 0

/- Concrete fixtures used to instantiate the universally quantified claims. -/

/-- The first feature of `initializeWeights`, written out literally. -/
def exActive : WeightData :=
  { id := 1, theta := 1, w := [0.5, 0.5, 0.5, 0.5, 0.5]
    isActive := true, isClamped := false
    prevTheta := 1, prevW := [0.5, 0.5, 0.5, 0.5, 0.5]
    gradTheta := 0, gradW := [0, 0, 0, 0, 0] }

/-- An inactive feature with stale (nonzero) gradients, exercising the
frame condition of the gradient step. -/
def exInactive : WeightData :=
  { id := 3, theta := 0.7, w := [0.3, -0.2, 0.3, 0.1, 0.3]
    isActive := false, isClamped := true
    prevTheta := 0.6, prevW := [0.3, -0.2, 0.3, 0.1, 0.3]
    gradTheta := 0.2, gradW := [0.1, 0, 0, 0, 0.1] }

/-- An inactive feature carrying id 1. -/
def exInactive1 : WeightData :=
  { id := 1, theta := 0.5, w := [0.25, 0.25, 0.25, 0.25, 0.25]
    isActive := false, isClamped := false
    prevTheta := 0.5, prevW := [0.25, 0.25, 0.25, 0.25, 0.25]
    gradTheta := 0, gradW := [0, 0, 0, 0, 0] }

/-- An active feature carrying id 2 whose theta (1) is off its target (0.6),
so a gradient step moves it. -/
def exActive2 : WeightData :=
  { id := 2, theta := 1, w := [0.5, 0.5, 0.5, 0.5, 0.5]
    isActive := true, isClamped := false
    prevTheta := 1, prevW := [0.5, 0.5, 0.5, 0.5, 0.5]
    gradTheta := 0, gradW := [0, 0, 0, 0, 0] }

/-- A feature with `theta = 0.185`, the value of the spec's proximal
scenario. -/
def exTheta185 : WeightData :=
  { id := 3, theta := 0.185, w := [0.0925, 0.0925, 0.0925, 0.0925, 0.0925]
    isActive := true, isClamped := false
    prevTheta := 0.2, prevW := [0.1, 0.1, 0.1, 0.1, 0.1]
    gradTheta := 0.015, gradW := [0, 0, 0, 0, 0] }

/-- An active feature whose theta is already within the pruning epsilon. -/
def exTiny : WeightData :=
  { id := 2, theta := 1e-4, w := [0.2, 0, -0.3, 0.1, 0.05]
    isActive := true, isClamped := false
    prevTheta := 1e-4, prevW := [0.2, 0, -0.3, 0.1, 0.05]
    gradTheta := 0, gradW := [0, 0, 0, 0, 0] }

end LassoNet

namespace LassoNet

set_option maxRecDepth 100000

/-! ### Helper lemmas about the step engine -/

theorem softThreshold_zero_left {t : ℚ} (ht : 0 ≤ t) : softThreshold 0 t = 0 := by
  unfold softThreshold
  split_ifs with h1 h2
  · linarith
  · linarith
  · rfl

theorem softThreshold_zero_right (x : ℚ) : softThreshold x 0 = x := by
  unfold softThreshold
  split_ifs with h1 h2
  · ring
  · ring
  · linarith

theorem gradFeature_inactive {f : WeightData} (h : f.isActive = false) :
    gradFeature f = f := by
  simp [gradFeature, h]

theorem gradFeature_isActive (f : WeightData) :
    (gradFeature f).isActive = f.isActive := by
  unfold gradFeature
  split_ifs with h
  · rfl
  · rfl

theorem zipWith_grad (c t : ℚ) (l : List ℚ) :
    List.zipWith (fun wv g => wv - c * g) l (l.map fun wv => wv - t)
      = l.map fun wv => wv - c * (wv - t) := by
  induction l with
  | nil => rfl
  | cons x xs ih => simp [ih]

theorem gradFeature_active {f : WeightData} (h : f.isActive = true) :
    (gradFeature f).theta = f.theta - LEARNING_RATE * (f.theta - targetTheta f.id)
      ∧ (gradFeature f).w = f.w.map fun wv =>
          wv - LEARNING_RATE * (wv - targetTheta f.id * 0.5) := by
  unfold gradFeature
  rw [h]
  simp [zipWith_grad]

theorem proxFeature_theta (lambda : ℚ) (f : WeightData) :
    (proxFeature lambda f).theta =
      if (1e-4 : ℚ) < |softThreshold f.theta (lambda * LEARNING_RATE)|
      then softThreshold f.theta (lambda * LEARNING_RATE) else 0 := by
  unfold proxFeature
  split_ifs with h <;> simp_all

theorem proxFeature_isActive (lambda : ℚ) (f : WeightData) :
    (proxFeature lambda f).isActive =
      decide ((1e-4 : ℚ) < |softThreshold f.theta (lambda * LEARNING_RATE)|) := rfl

theorem proxFeature_w (lambda : ℚ) (f : WeightData) :
    (proxFeature lambda f).w = f.w.map fun wv =>
      if M_CONSTANT * |(proxFeature lambda f).theta| < |wv|
      then jsSign wv * (M_CONSTANT * |(proxFeature lambda f).theta|) else wv := by
  rfl

theorem abs_jsSign_mul_le {x L : ℚ} (hL : 0 ≤ L) : |jsSign x * L| ≤ L := by
  unfold jsSign
  split_ifs with h1 h2
  · simp [abs_of_nonneg hL]
  · rw [neg_one_mul, abs_neg, abs_of_nonneg hL]
  · simp [hL]

theorem clamp_abs_le {x limit : ℚ} (hL : 0 ≤ limit) :
    |if |x| > limit then jsSign x * limit else x| ≤ limit := by
  split_ifs with h
  · exact abs_jsSign_mul_le hL
  · linarith [not_lt.mp h]

theorem clamp_zero {x : ℚ} :
    (if |x| > (0:ℚ) then jsSign x * 0 else x) = 0 := by
  split_ifs with h
  · ring
  · have h0 : |x| = 0 := le_antisymm (not_lt.mp h) (abs_nonneg x)
    exact abs_eq_zero.mp h0

theorem foldl_max_le {B : ℚ} : ∀ (l : List ℚ) (a : ℚ), a ≤ B →
    (∀ x ∈ l, |x| ≤ B) → l.foldl (fun a b => max a |b|) a ≤ B := by
  intro l
  induction l with
  | nil => intro a ha _; exact ha
  | cons x xs ih =>
    intro a ha hall
    simp only [List.foldl_cons]
    exact ih (max a |x|) (max_le ha (hall x (by simp)))
      (fun y hy => hall y (by simp [hy]))

theorem maxAbs_le {B : ℚ} (hB : 0 ≤ B) (l : List ℚ)
    (h : ∀ x ∈ l, |x| ≤ B) : maxAbs l ≤ B :=
  foldl_max_le l 0 hB h

theorem proxFeature_dead_stable {lambda : ℚ} {f : WeightData}
    (hl : 0 ≤ lambda) (ht : f.theta = 0) :
    (proxFeature lambda f).isActive = false ∧ (proxFeature lambda f).theta = 0 := by
  have hthr : (0:ℚ) ≤ lambda * LEARNING_RATE := by
    have : (0:ℚ) ≤ LEARNING_RATE := by norm_num [LEARNING_RATE]
    exact mul_nonneg hl this
  have hsoft : softThreshold f.theta (lambda * LEARNING_RATE) = 0 := by
    rw [ht]; exact softThreshold_zero_left hthr
  constructor
  · rw [proxFeature_isActive, hsoft]
    norm_num
  · rw [proxFeature_theta, hsoft]
    norm_num

theorem proxFeature_theta_zero_of_inactive {lambda : ℚ} {f : WeightData}
    (h : (proxFeature lambda f).isActive = false) :
    (proxFeature lambda f).theta = 0 := by
  rw [proxFeature_isActive] at h
  rw [proxFeature_theta]
  simp only [decide_eq_false_iff_not] at h
  simp [h]

theorem ite_prune_swap (t1 : ℚ) :
    (if (1e-4 : ℚ) < |t1| then t1 else 0) = if |t1| ≤ 1e-4 then 0 else t1 := by
  rcases le_or_lt |t1| 1e-4 with h | h
  · rw [if_neg (not_lt.mpr h), if_pos h]
  · rw [if_pos h, if_neg (not_le.mpr h)]

theorem decide_prune_swap (t1 : ℚ) :
    decide ((1e-4 : ℚ) < |t1|) = if |t1| ≤ 1e-4 then false else true := by
  rcases le_or_lt |t1| 1e-4 with h | h
  · simp [not_lt.mpr h, h]
  · simp [h, not_le.mpr h]

/-! ### Helper lemmas about the scheduler -/

theorem advance_features_cases (s : SimulationState) :
    (advanceSimulation s).features = s.features
    ∨ (advanceSimulation s).features = s.features.map gradFeature
    ∨ (advanceSimulation s).features = s.features.map (proxFeature s.lambda) := by
  unfold advanceSimulation performGradientStep performProximalStep
  split_ifs <;> simp [apply_ite SimulationState.features]

theorem toFixed2_nonneg {q : ℚ} (hq : 0 ≤ q) : 0 ≤ toFixed2 q := by
  unfold toFixed2
  have h1 : (0:ℤ) ≤ (q * 100 + 1 / 2).floor := by
    rw [Rat.le_floor]
    push_cast
    nlinarith
  have h2 : (0:ℚ) ≤ ((q * 100 + 1 / 2).floor : ℚ) := by exact_mod_cast h1
  linarith

theorem advance_lambda_nonneg {s : SimulationState} (h : 0 ≤ s.lambda) :
    0 ≤ (advanceSimulation s).lambda := by
  unfold advanceSimulation
  have hstep : (0:ℚ) ≤ LAMBDA_STEP := by norm_num [LAMBDA_STEP]
  have hfix : 0 ≤ toFixed2 (s.lambda + LAMBDA_STEP) :=
    toFixed2_nonneg (by linarith)
  split_ifs <;> simp [apply_ite SimulationState.lambda, h, hstep, hfix] <;>
    split_ifs <;> simp [h, hstep, hfix]

theorem advance_finished_phase {s : SimulationState}
    (h : s.phase = SimulationPhase.FINISHED) :
    (advanceSimulation s).phase = SimulationPhase.FINISHED := by
  unfold advanceSimulation
  split_ifs <;> simp_all [apply_ite SimulationState.phase]

theorem advance_pretrain_lambda {s : SimulationState}
    (hI : s.phase = SimulationPhase.INIT → s.lambda = 0)
    (hP : s.phase = SimulationPhase.PRETRAIN → s.lambda = 0) :
    ((advanceSimulation s).phase = SimulationPhase.INIT →
        (advanceSimulation s).lambda = 0)
    ∧ ((advanceSimulation s).phase = SimulationPhase.PRETRAIN →
        (advanceSimulation s).lambda = 0) := by
  unfold advanceSimulation
  split_ifs <;>
    simp_all [apply_ite SimulationState.phase, apply_ite SimulationState.lambda] <;>
    split_ifs <;> simp_all

/-- Reachable-state invariant: an inactive feature has `theta` exactly 0. -/
def DeadZero (s : SimulationState) : Prop :=
  ∀ f ∈ s.features, f.isActive = false → f.theta = 0

theorem deadZero_step {s : SimulationState}
    (hd : DeadZero s) : DeadZero (advanceSimulation s) := by
  rcases advance_features_cases s with h | h | h <;> intro g hg hga <;> rw [h] at hg
  · exact hd g hg hga
  · rcases List.mem_map.mp hg with ⟨f, hf, rfl⟩
    rcases hfa : f.isActive with _ | _
    · rw [gradFeature_inactive hfa] at hga ⊢
      exact hd f hf hga
    · rw [gradFeature_isActive] at hga
      rw [hga] at hfa
      cases hfa
  · rcases List.mem_map.mp hg with ⟨f, hf, rfl⟩
    exact proxFeature_theta_zero_of_inactive hga

theorem iter_succ (n : Nat) : iter (n + 1) = advanceSimulation (iter n) :=
  Function.iterate_succ_apply' advanceSimulation n resetState

theorem iter_lambda_nonneg (n : Nat) : 0 ≤ (iter n).lambda := by
  induction n with
  | zero => norm_num [iter, resetState]
  | succ k ih => rw [iter_succ]; exact advance_lambda_nonneg ih

theorem iter_deadZero (n : Nat) : DeadZero (iter n) := by
  induction n with
  | zero =>
    show ∀ f ∈ (iter 0).features, f.isActive = false → f.theta = 0
    decide
  | succ k ih => rw [iter_succ]; exact deadZero_step ih

theorem dead_preserved_one {s : SimulationState} (hl : 0 ≤ s.lambda)
    (hd : DeadZero s) {i : Nat} {f : WeightData}
    (hget : s.features[i]? = some f) (hfa : f.isActive = false) :
    ∃ g, (advanceSimulation s).features[i]? = some g
      ∧ g.isActive = false ∧ g.theta = 0 := by
  have hth : f.theta = 0 := hd f (List.getElem?_mem hget) hfa
  rcases advance_features_cases s with h | h | h
  · exact ⟨f, by rw [h, hget], hfa, hth⟩
  · refine ⟨gradFeature f, ?_, ?_, ?_⟩
    · rw [h, List.getElem?_map, hget]; rfl
    · rw [gradFeature_isActive]; exact hfa
    · rw [gradFeature_inactive hfa]; exact hth
  · refine ⟨proxFeature s.lambda f, ?_, ?_, ?_⟩
    · rw [h, List.getElem?_map, hget]; rfl
    · exact (proxFeature_dead_stable hl hth).1
    · exact (proxFeature_dead_stable hl hth).2

theorem iter_pretrain_lambda (n : Nat) :
    ((iter n).phase = SimulationPhase.INIT → (iter n).lambda = 0)
    ∧ ((iter n).phase = SimulationPhase.PRETRAIN → (iter n).lambda = 0) := by
  induction n with
  | zero => exact ⟨fun _ => rfl, fun _ => rfl⟩
  | succ k ih =>
    rw [iter_succ]
    exact advance_pretrain_lambda ih.1 ih.2

/-! ### Helper lemmas about the detail-record selection -/

theorem gradDetailUpd_fix : ∀ (l : List WeightData) (d : StepCalculationDetails),
    d.featureId = 1 → (∀ g ∈ l, g.id ≠ 1) → l.foldl gradDetailUpd d = d := by
  intro l
  induction l with
  | nil => intro d _ _; rfl
  | cons x xs ih =>
    intro d hd hids
    have hx : x.id ≠ 1 := hids x (by simp)
    have hstep : gradDetailUpd d x = d := by
      unfold gradDetailUpd
      split_ifs with h1 h2
      · rfl
      · rcases h2 with h2 | ⟨_, h2⟩
        · exact absurd h2 hx
        · exact absurd hd h2
      · rfl
    simp only [List.foldl_cons, hstep]
    exact ih d hd (fun g hg => hids g (by simp [hg]))

theorem proxDetailUpd_fix (lambda : ℚ) :
    ∀ (l : List WeightData) (d : StepCalculationDetails),
    d.featureId = 1 → (∀ g ∈ l, g.id ≠ 1) →
    l.foldl (proxDetailUpd lambda) d = d := by
  intro l
  induction l with
  | nil => intro d _ _; rfl
  | cons x xs ih =>
    intro d hd hids
    have hx : x.id ≠ 1 := hids x (by simp)
    have hstep : proxDetailUpd lambda d x = d := by
      unfold proxDetailUpd
      split_ifs with h1
      · rcases h1 with h1 | ⟨_, h1⟩
        · exact absurd h1 hx
        · exact absurd hd h1
      · rfl
    simp only [List.foldl_cons, hstep]
    exact ih d hd (fun g hg => hids g (by simp [hg]))

end LassoNet

namespace LassoNet

/-! ### Claim theorems -/

/-- C1: for every active feature, `performGradientStep` uses target theta
1.8 for id 1, 0.6 for id 2 and 0.05 otherwise, target hidden weight
`targetTheta * 0.5`, and performs `theta' = theta - 0.1 * (theta - target)`
and `w_k' = w_k - 0.1 * (w_k - targetW)`; applied to the `initializeWeights`
output, one gradient step yields thetas 1.08, 0.6 (unchanged) and 0.185. -/
theorem gradient_step_targets_and_update :
    (∀ (fs : List WeightData) (i : Nat) (f : WeightData),
        fs[i]? = some f → f.isActive = true →
        ((performGradientStep fs).1[i]?).map (fun g => g.theta)
            = some (f.theta - 0.1 * (f.theta -
                (if f.id = 1 then 1.8 else if f.id = 2 then 0.6 else 0.05)))
        ∧ ((performGradientStep fs).1[i]?).map (fun g => g.w)
            = some (f.w.map fun wv => wv - 0.1 * (wv -
                (if f.id = 1 then 1.8 else if f.id = 2 then 0.6 else 0.05) * 0.5)))
    ∧ (performGradientStep initializeWeights).1.map (fun g => g.theta)
        = [1.08, 0.6, 0.185] := by
  constructor
  · intro fs i f hget hact
    have hmap : (performGradientStep fs).1[i]? = some (gradFeature f) := by
      show (fs.map gradFeature)[i]? = _
      rw [List.getElem?_map, hget]
      rfl
    rw [hmap]
    constructor
    · simp only [Option.map_some']
      rw [(gradFeature_active hact).1]
      rfl
    · simp only [Option.map_some']
      rw [(gradFeature_active hact).2]
      rfl
  · exact of_decide_eq_true (by with_unfolding_all rfl)

/-- Witness for C1: the theorem applied to feature 1 of the initial
collection. -/
theorem gradient_step_targets_and_update_witness :
    ((performGradientStep initializeWeights).1[0]?).map (fun g => g.theta)
        = some (exActive.theta - 0.1 * (exActive.theta -
            (if exActive.id = 1 then 1.8 else if exActive.id = 2 then 0.6 else 0.05)))
    ∧ ((performGradientStep initializeWeights).1[0]?).map (fun g => g.w)
        = some (exActive.w.map fun wv => wv - 0.1 * (wv -
            (if exActive.id = 1 then 1.8 else if exActive.id = 2 then 0.6 else 0.05) * 0.5)) :=
  gradient_step_targets_and_update.1 initializeWeights 0 exActive
    (of_decide_eq_true (by with_unfolding_all rfl)) rfl

/-- C7: an inactive feature passes through `performGradientStep` completely
unmodified — the whole record, hence `theta`, `w`, `prevTheta`, `prevW`,
`gradTheta`, `gradW`, `isActive` and `isClamped`, is returned as-is. -/
theorem gradient_step_inactive_frame :
    ∀ (fs : List WeightData) (i : Nat) (f : WeightData),
      fs[i]? = some f → f.isActive = false →
      (performGradientStep fs).1[i]? = some f := by
  intro fs i f hget hfa
  show (fs.map gradFeature)[i]? = some f
  rw [List.getElem?_map, hget]
  simp [gradFeature_inactive hfa]

/-- Witness for C7: an inactive feature with stale gradients is returned
verbatim. -/
theorem gradient_step_inactive_frame_witness :
    (performGradientStep [exActive, exInactive]).1[1]? = some exInactive :=
  gradient_step_inactive_frame [exActive, exInactive] 1 exInactive rfl rfl

/-- C8: `initializeWeights` deterministically produces 3 features; the one
at 0-based index `i` has id `i + 1`, theta `1 - i * 0.4`, five hidden
weights all equal to `theta * 0.5`, `isActive` true, `isClamped` false,
zero gradients, and `prevTheta`/`prevW` equal to the initial values. -/
theorem initializeWeights_characterization :
    initializeWeights.length = 3
    ∧ ∀ i : Nat, i < 3 →
        initializeWeights[i]? = some
          { id := i + 1
            theta := 1.0 - (i : ℚ) * 0.4
            w := List.replicate 5 ((1.0 - (i : ℚ) * 0.4) * 0.5)
            isActive := true
            isClamped := false
            prevTheta := 1.0 - (i : ℚ) * 0.4
            prevW := List.replicate 5 ((1.0 - (i : ℚ) * 0.4) * 0.5)
            gradTheta := 0
            gradW := List.replicate 5 0 } := by
  refine ⟨rfl, ?_⟩
  intro i hi
  interval_cases i <;> rfl

/-- Witness for C8: the formula instantiated at index 2 (feature 3). -/
theorem initializeWeights_characterization_witness :
    initializeWeights[2]? = some
      { id := 2 + 1
        theta := 1.0 - ((2 : Nat) : ℚ) * 0.4
        w := List.replicate 5 ((1.0 - ((2 : Nat) : ℚ) * 0.4) * 0.5)
        isActive := true
        isClamped := false
        prevTheta := 1.0 - ((2 : Nat) : ℚ) * 0.4
        prevW := List.replicate 5 ((1.0 - ((2 : Nat) : ℚ) * 0.4) * 0.5)
        gradTheta := 0
        gradW := List.replicate 5 0 } :=
  initializeWeights_characterization.2 2 (by norm_num)

end LassoNet

namespace LassoNet

/-- C2: for every feature (active or not) and every `lambda ≥ 0`,
`performProximalStep` soft-thresholds `theta` at `tau = lambda * 0.1`
(`theta - tau` above `tau`, `theta + tau` below `-tau`, else 0), then forces
`theta' = 0` with `isActive = false` when `|theta'| ≤ 1e-4` and sets
`isActive = true` otherwise; with `lambda = 1`, `theta = 0.185` becomes
`0.085`, still active. -/
theorem proximal_soft_threshold_spec :
    (∀ x t : ℚ, softThreshold x t =
        if x > t then x - t else if x < -t then x + t else 0)
    ∧ (∀ (lambda : ℚ) (fs : List WeightData) (i : Nat) (f : WeightData),
        0 ≤ lambda → fs[i]? = some f →
        ((performProximalStep fs lambda).1[i]?).map (fun g => g.theta)
            = some (if |softThreshold f.theta (lambda * 0.1)| ≤ 1e-4 then 0
                    else softThreshold f.theta (lambda * 0.1))
        ∧ ((performProximalStep fs lambda).1[i]?).map (fun g => g.isActive)
            = some (if |softThreshold f.theta (lambda * 0.1)| ≤ 1e-4 then false
                    else true))
    ∧ (((performProximalStep [exTheta185] 1).1[0]?).map (fun g => g.theta)
          = some (0.085 : ℚ)
        ∧ ((performProximalStep [exTheta185] 1).1[0]?).map (fun g => g.isActive)
          = some true) := by
  refine ⟨fun x t => rfl, ?_, of_decide_eq_true (by with_unfolding_all rfl)⟩
  intro lambda fs i f _hl hget
  have hmap : (performProximalStep fs lambda).1[i]? = some (proxFeature lambda f) := by
    show (fs.map (proxFeature lambda))[i]? = _
    rw [List.getElem?_map, hget]
    rfl
  rw [hmap]
  constructor
  · simp only [Option.map_some']
    rw [proxFeature_theta, ite_prune_swap]
    rfl
  · simp only [Option.map_some']
    rw [proxFeature_isActive, decide_prune_swap]
    rfl

/-- Witness for C2: the theorem applied at `lambda = 1` to the feature with
`theta = 0.185`. -/
theorem proximal_soft_threshold_spec_witness :
    ((performProximalStep [exTheta185] 1).1[0]?).map (fun g => g.theta)
        = some (if |softThreshold exTheta185.theta (1 * 0.1)| ≤ 1e-4 then 0
                else softThreshold exTheta185.theta (1 * 0.1))
    ∧ ((performProximalStep [exTheta185] 1).1[0]?).map (fun g => g.isActive)
        = some (if |softThreshold exTheta185.theta (1 * 0.1)| ≤ 1e-4 then false
                else true) :=
  proximal_soft_threshold_spec.2.1 1 [exTheta185] 0 exTheta185 (by norm_num) rfl

/-- C3: every feature of a `performProximalStep` output satisfies
`max_k |w_k| ≤ 2 * |theta|` exactly (so in particular within any
nonnegative floating tolerance), and a pruned feature (`theta' = 0`) has
every hidden weight exactly 0. -/
theorem proximal_hierarchy_invariant :
    ∀ (fs : List WeightData) (lambda : ℚ) (i : Nat) (g : WeightData),
      0 ≤ lambda → (performProximalStep fs lambda).1[i]? = some g →
      maxAbs g.w ≤ 2.0 * |g.theta|
      ∧ (g.theta = 0 → (g.w.all fun wv => decide (wv = (0:ℚ))) = true) := by
  intro fs lambda i g _hl hget
  have hmap : (performProximalStep fs lambda).1[i]?
      = (fs[i]?).map (proxFeature lambda) := by
    show (fs.map (proxFeature lambda))[i]? = _
    rw [List.getElem?_map]
  rw [hmap] at hget
  rcases Option.map_eq_some'.mp hget with ⟨f, hf, rfl⟩
  have hL : (0:ℚ) ≤ M_CONSTANT * |(proxFeature lambda f).theta| := by
    have hM : (0:ℚ) ≤ M_CONSTANT := by norm_num [M_CONSTANT]
    exact mul_nonneg hM (abs_nonneg _)
  constructor
  · have h2 : (2.0:ℚ) * |(proxFeature lambda f).theta|
        = M_CONSTANT * |(proxFeature lambda f).theta| := by
      norm_num [M_CONSTANT]
    rw [h2]
    apply maxAbs_le hL
    intro x hx
    rw [proxFeature_w] at hx
    rcases List.mem_map.mp hx with ⟨wv, _, rfl⟩
    exact clamp_abs_le hL
  · intro hth
    rw [List.all_eq_true]
    intro x hx
    rw [proxFeature_w] at hx
    rcases List.mem_map.mp hx with ⟨wv, _, rfl⟩
    have hlim : M_CONSTANT * |(proxFeature lambda f).theta| = 0 := by
      rw [hth]; simp
    rw [hlim]
    simp only [decide_eq_true_eq]
    exact clamp_zero

/-- Witness for C3: the theorem applied at `lambda = 5` to a feature that
gets pruned, so that both the bound and the pruned-zeroing conclusion bite. -/
theorem proximal_hierarchy_invariant_witness :
    maxAbs (proxFeature 5 exTheta185).w ≤ 2.0 * |(proxFeature 5 exTheta185).theta|
    ∧ ((proxFeature 5 exTheta185).w.all fun wv => decide (wv = (0:ℚ))) = true :=
  ⟨(proximal_hierarchy_invariant [exTheta185] 5 0 (proxFeature 5 exTheta185)
      (by norm_num) rfl).1,
   (proximal_hierarchy_invariant [exTheta185] 5 0 (proxFeature 5 exTheta185)
      (by norm_num) rfl).2
      (of_decide_eq_true (by with_unfolding_all rfl))⟩

/-- C10: `performProximalStep` at `lambda = 0` is not the identity: a
feature with `|theta| ≤ 1e-4` is pruned (theta forced to 0, `isActive`
false, all hidden weights 0) while one with `|theta| > 1e-4` keeps its
theta; and the scheduler's lambda is always 0 while in `PRETRAIN`, so this
pruning can occur during pretraining. -/
theorem proximal_lambda_zero_prunes :
    (∀ (fs : List WeightData) (i : Nat) (f : WeightData),
        fs[i]? = some f → |f.theta| ≤ 1e-4 →
        ((performProximalStep fs 0).1[i]?).map (fun g => g.theta) = some 0
        ∧ ((performProximalStep fs 0).1[i]?).map (fun g => g.isActive) = some false
        ∧ ((performProximalStep fs 0).1[i]?).map (fun g => g.w)
            = some (f.w.map fun _ => 0))
    ∧ (∀ (fs : List WeightData) (i : Nat) (f : WeightData),
        fs[i]? = some f → 1e-4 < |f.theta| →
        ((performProximalStep fs 0).1[i]?).map (fun g => g.theta) = some f.theta)
    ∧ (∀ n : Nat, (iter n).phase = SimulationPhase.PRETRAIN → (iter n).lambda = 0)
    ∧ (performProximalStep [exTiny] 0).1 ≠ [exTiny] := by
  have hsoft : ∀ f : WeightData,
      softThreshold f.theta (0 * LEARNING_RATE) = f.theta := by
    intro f
    rw [zero_mul, softThreshold_zero_right]
  refine ⟨?_, ?_, fun n => (iter_pretrain_lambda n).2,
    of_decide_eq_true (by with_unfolding_all rfl)⟩
  · intro fs i f hget hsm
    have hmap : (performProximalStep fs 0).1[i]? = some (proxFeature 0 f) := by
      show (fs.map (proxFeature 0))[i]? = _
      rw [List.getElem?_map, hget]
      rfl
    have hth0 : (proxFeature 0 f).theta = 0 := by
      rw [proxFeature_theta, hsoft, if_neg (not_lt.mpr hsm)]
    refine ⟨?_, ?_, ?_⟩
    · rw [hmap]
      simp only [Option.map_some']
      rw [hth0]
    · rw [hmap]
      simp only [Option.map_some']
      rw [proxFeature_isActive, hsoft]
      simp [not_lt.mpr hsm]
    · rw [hmap]
      simp only [Option.map_some']
      have hlim : M_CONSTANT * |(proxFeature 0 f).theta| = 0 := by
        rw [hth0]; simp
      rw [proxFeature_w, hlim]
      have hfun : (fun wv : ℚ => if |wv| > (0:ℚ) then jsSign wv * 0 else wv)
          = fun _ => (0:ℚ) := funext fun x => clamp_zero
      rw [hfun]
  · intro fs i f hget hbig
    have hmap : (performProximalStep fs 0).1[i]? = some (proxFeature 0 f) := by
      show (fs.map (proxFeature 0))[i]? = _
      rw [List.getElem?_map, hget]
      rfl
    rw [hmap]
    simp only [Option.map_some']
    rw [proxFeature_theta, hsoft, if_pos hbig]

/-- Witness for C10: the pruning branch applied to a feature whose theta is
exactly the epsilon `1e-4`. -/
theorem proximal_lambda_zero_prunes_witness :
    ((performProximalStep [exTiny] 0).1[0]?).map (fun g => g.theta) = some 0
    ∧ ((performProximalStep [exTiny] 0).1[0]?).map (fun g => g.isActive) = some false
    ∧ ((performProximalStep [exTiny] 0).1[0]?).map (fun g => g.w)
        = some (exTiny.w.map fun _ => 0) :=
  proximal_lambda_zero_prunes.1 [exTiny] 0 exTiny rfl
    (of_decide_eq_true (by with_unfolding_all rfl))

end LassoNet

namespace LassoNet

set_option maxRecDepth 100000

/-- C4: from the reset state (`INIT`, lambda 0, epoch 0), the first
`advance()` only transitions to `PRETRAIN` — features, step, lambda and
epoch are untouched — and after exactly `1 + 2*5 = 11` calls the scheduler
is in `PATH_LOOP` with `lambda = LAMBDA_STEP = 0.2` and `epoch = 0`. -/
theorem scheduler_init_and_pretrain_count :
    resetState.phase = SimulationPhase.INIT
    ∧ resetState.lambda = 0
    ∧ resetState.epoch = 0
    ∧ (iter 1).phase = SimulationPhase.PRETRAIN
    ∧ (iter 1).features = resetState.features
    ∧ (iter 1).step = resetState.step
    ∧ (iter 1).lambda = resetState.lambda
    ∧ (iter 1).epoch = resetState.epoch
    ∧ (iter 11).phase = SimulationPhase.PATH_LOOP
    ∧ (iter 11).lambda = LAMBDA_STEP
    ∧ (iter 11).lambda = 0.2
    ∧ (iter 11).epoch = 0 :=
  of_decide_eq_true (by with_unfolding_all rfl)

/-- Counterexample to C5: the run reaches `FINISHED` at call 111, but a
further `advance()` there is not a no-op — it flips the `step` field (the
step/transition logic keeps executing; only the `INIT` early return skips
numeric work, and the interval driver, not `advance` itself, is what stops). -/
theorem finished_advance_not_noop_cex :
    (iter 111).phase = SimulationPhase.FINISHED
    ∧ (advanceSimulation (iter 111)).step ≠ (iter 111).step :=
  of_decide_eq_true (by with_unfolding_all rfl)

/-- C5 (amended): the run reaches `phase = FINISHED` in a bounded number of
calls (111 from reset), and the phase is absorbing — every further
`advance()` leaves `phase = FINISHED` (though it keeps performing
gradient/proximal work, so other fields may change). -/
theorem finished_reached_and_phase_absorbing :
    (iter 111).phase = SimulationPhase.FINISHED
    ∧ ∀ s : SimulationState, s.phase = SimulationPhase.FINISHED →
        (advanceSimulation s).phase = SimulationPhase.FINISHED :=
  ⟨of_decide_eq_true (by with_unfolding_all rfl),
   fun _ h => advance_finished_phase h⟩

/-- Witness for the amended C5: the absorbing part applied at the concrete
state reached after 111 calls. -/
theorem finished_reached_and_phase_absorbing_witness :
    (advanceSimulation (iter 111)).phase = SimulationPhase.FINISHED :=
  finished_reached_and_phase_absorbing.2 (iter 111)
    finished_reached_and_phase_absorbing.1

/-- C6: along the scheduler-driven run, once a feature's `isActive` is
false at call `n`, at every later call `m ≥ n` it is still false and its
theta is exactly 0. -/
theorem pruned_features_stay_pruned :
    ∀ n m i : Nat, n ≤ m →
      ((iter n).features[i]?).map (fun f => f.isActive) = some false →
      ((iter m).features[i]?).map (fun f => f.isActive) = some false
      ∧ ((iter m).features[i]?).map (fun f => f.theta) = some 0 := by
  intro n m i hnm h
  rcases Option.map_eq_some'.mp h with ⟨f, hget, hfa⟩
  have key : ∀ m', n ≤ m' → ∃ g, (iter m').features[i]? = some g
      ∧ g.isActive = false ∧ g.theta = 0 := by
    intro m' hm
    induction m', hm using Nat.le_induction with
    | base => exact ⟨f, hget, hfa, iter_deadZero n f (List.getElem?_mem hget) hfa⟩
    | succ k hk ih =>
      rcases ih with ⟨g, hg, hga, hgt⟩
      rw [iter_succ]
      exact dead_preserved_one (iter_lambda_nonneg k) (iter_deadZero k) hg hga
  rcases key m hnm with ⟨g, hg, hga, hgt⟩
  rw [hg]
  simp [hga, hgt]

/-- Witness for C6: feature 3 (index 2) is first pruned at call 23; at call
24 it is still inactive with theta exactly 0. -/
theorem pruned_features_stay_pruned_witness :
    ((iter 24).features[2]?).map (fun f => f.isActive) = some false
    ∧ ((iter 24).features[2]?).map (fun f => f.theta) = some 0 :=
  pruned_features_stay_pruned 23 24 2 (by norm_num)
    (of_decide_eq_true (by with_unfolding_all rfl))

/-- Counterexample to C9: with feature 1 inactive and feature 2 active, a
gradient step updates feature 2 (its theta moves from 1 to 0.96) and leaves
feature 1 untouched, yet the returned detail is the placeholder
`{featureId := 1}` with no numeric fields — not a record describing the
lowest actually-updated id among {1, 2}, which is 2. -/
theorem gradient_detail_untouched_feature_cex :
    (performGradientStep [exInactive1, exActive2]).2.featureId = 1
    ∧ (performGradientStep [exInactive1, exActive2]).2.oldVal = none
    ∧ (performGradientStep [exInactive1, exActive2]).1[0]? = some exInactive1
    ∧ ((performGradientStep [exInactive1, exActive2]).1[1]?).map (fun g => g.theta)
        = some (0.96 : ℚ)
    ∧ exActive2.theta = 1 :=
  of_decide_eq_true (by with_unfolding_all rfl)

/-- C9 (amended): for a collection headed by the id-1 feature (with no
other id-1 entries, as in every scheduler state), the gradient-step detail
describes feature 1's update when feature 1 is active and otherwise remains
the placeholder `{featureId := 1}` with no values — even if feature 2 was
updated; the proximal-step detail always describes feature 1 (every feature
is updated there). -/
theorem detail_selection_amended :
    ∀ (f : WeightData) (rest : List WeightData) (lambda : ℚ),
      f.id = 1 → (∀ g ∈ rest, g.id ≠ 1) →
      ((performGradientStep (f :: rest)).2
          = if f.isActive = true then gradDetailFor f
            else { stepType := .GRADIENT, featureId := 1 })
      ∧ (performProximalStep (f :: rest) lambda).2 = proxDetailFor lambda f := by
  intro f rest lambda hid hrest
  constructor
  · show (f :: rest).foldl gradDetailUpd { stepType := .GRADIENT, featureId := 1 } = _
    rw [List.foldl_cons]
    rcases hact : f.isActive with _ | _
    · have h1 : gradDetailUpd { stepType := .GRADIENT, featureId := 1 } f
          = { stepType := .GRADIENT, featureId := 1 } := by
        unfold gradDetailUpd
        rw [hact]
        simp
      rw [h1, if_neg Bool.false_ne_true]
      exact gradDetailUpd_fix rest _ rfl hrest
    · have h1 : gradDetailUpd { stepType := .GRADIENT, featureId := 1 } f
          = gradDetailFor f := by
        unfold gradDetailUpd
        rw [hact]
        simp [hid]
      rw [h1, if_pos rfl]
      have hfid : (gradDetailFor f).featureId = 1 := by simp [gradDetailFor, hid]
      exact gradDetailUpd_fix rest _ hfid hrest
  · show (f :: rest).foldl (proxDetailUpd lambda)
        { stepType := .PROXIMAL, featureId := 1 } = _
    rw [List.foldl_cons]
    have h1 : proxDetailUpd lambda { stepType := .PROXIMAL, featureId := 1 } f
        = proxDetailFor lambda f := by
      unfold proxDetailUpd
      simp [hid]
    rw [h1]
    have hfid : (proxDetailFor lambda f).featureId = 1 := by
      simp [proxDetailFor, hid]
    exact proxDetailUpd_fix lambda rest _ hfid hrest

/-- Witness for the amended C9: the selection rule applied to a singleton
collection holding the active id-1 feature. -/
theorem detail_selection_amended_witness :
    ((performGradientStep [exActive]).2
        = if exActive.isActive = true then gradDetailFor exActive
          else { stepType := .GRADIENT, featureId := 1 })
    ∧ (performProximalStep [exActive] 0).2 = proxDetailFor 0 exActive :=
  detail_selection_amended exActive [] 0 rfl (by simp)

end LassoNet
